import Mathlib

/-!
Verification of the collagebot RAG request pipeline (Supabase edge functions).

The embedding below translates, from the source:
 - the fixed-window rate limiter of the chat handler (rate_limits table logic),
 - the vector search RPC match_documents (update_rpc.sql),
 - the chat/embed orchestrator of the final handler variant (auth, RAG
   degradation, prompt assembly, citations, error sanitisation).

Times are modelled in milliseconds as integers (JavaScript Date.getTime), and
the store round trips of the rate limiter are split into an explicit
read / decide / write sequence so that interleavings of concurrent requests
can be analysed.
-/

namespace Collagebot

/-! ### Rate limiter (third handler variant, rate_limits table)

The handler reads the RateWindow row for (user_id, endpoint), decides, and
separately writes back.  `request_count` is a natural number, `window_start`
a millisecond timestamp.  The configured constants are RATE_LIMIT = 10 and
WINDOW_MINUTES = 1, i.e. a window length of 60000 ms; `admission` is stated for
arbitrary configuration values as the spec requires. -/

structure RateWindow where
  request_count : Nat
  window_start : Int
deriving Repr, DecidableEq

inductive AdmissionOutcome where
  | Allowed : AdmissionOutcome
  | Denied (resetAt : Int) : AdmissionOutcome
deriving Repr, DecidableEq

/-- A pending write against the rate_limits row: either an upsert of a fresh
row value, or no write at all (the denial branch returns early). -/
inductive RLWrite where
  | put (w : RateWindow) : RLWrite
  | keep : RLWrite
deriving Repr, DecidableEq

/-- Decision step of the handler, computed from the row value it has read:
no row inserts count 1 at now; a stale row (now - window_start >= length)
is reset; a current row below the limit is incremented (the written count is
computed from the read value); a current row at the limit denies with the
reset time window_start + windowLen. -/
def rlDecide (limit : Nat) (windowLen : Int) (r : Option RateWindow) (now : Int) :
    AdmissionOutcome × RLWrite :=
  match r with
  | none => (.Allowed, .put ⟨1, now⟩)
  | some w =>
    if now - w.window_start < windowLen then
      if limit ≤ w.request_count then
        (.Denied (w.window_start + windowLen), .keep)
      else
        (.Allowed, .put ⟨w.request_count + 1, w.window_start⟩)
    else
      (.Allowed, .put ⟨1, now⟩)

def applyWrite (st : Option RateWindow) : RLWrite → Option RateWindow
  | .keep => st
  | .put w => some w

/-- One rate limiter call for a key, as the handler performs it in isolation:
read the stored row, decide, apply the write. -/
def admission (limit : Nat) (windowLen : Int) (st : Option RateWindow) (now : Int) :
    AdmissionOutcome × Option RateWindow :=
  let d := rlDecide limit windowLen st now
  (d.1, applyWrite st d.2)

/-- Denials carry the absolute reset time; the retry-after duration at the
moment of the call is its distance from now. -/
def retryAfter (o : AdmissionOutcome) (now : Int) : Option Int :=
  match o with
  | .Allowed => none
  | .Denied resetAt => some (resetAt - now)

/-- Sequentially processing a list of request times, threading the stored
window. -/
def runAdmission (limit : Nat) (windowLen : Int) :
    Option RateWindow → List Int → List AdmissionOutcome × Option RateWindow
  | st, [] => ([], st)
  | st, t :: ts =>
    let d := admission limit windowLen st t
    let rest := runAdmission limit windowLen d.2 ts
    (d.1 :: rest.1, rest.2)

/-- Two concurrent requests for the same key, interleaved as
read A, read B, write A, write B: both decisions are computed from the same
stored row, and the write of B is computed from the stale read of B. -/
def interleavedSameKey (limit : Nat) (windowLen : Int) (st : Option RateWindow)
    (now : Int) : (AdmissionOutcome × AdmissionOutcome) × Option RateWindow :=
  let rA := st
  let rB := st
  let dA := rlDecide limit windowLen rA now
  let s1 := applyWrite st dA.2
  let dB := rlDecide limit windowLen rB now
  let s2 := applyWrite s1 dB.2
  ((dA.1, dB.1), s2)

/-- C1: the rate limiter follows the fixed-window case analysis: no window
creates count 1 at now and allows; a stale window resets to count 1 at now
and allows; a current window below the limit increments and allows; a
current window at the limit denies with retry_after equal to
window_start + window_length - now. -/
theorem admission_case_analysis (limit : Nat) (windowLen now : Int) (w : RateWindow) :
    admission limit windowLen none now = (.Allowed, some ⟨1, now⟩) ∧
    (windowLen ≤ now - w.window_start →
      admission limit windowLen (some w) now = (.Allowed, some ⟨1, now⟩)) ∧
    (now - w.window_start < windowLen → w.request_count < limit →
      admission limit windowLen (some w) now =
        (.Allowed, some ⟨w.request_count + 1, w.window_start⟩)) ∧
    (now - w.window_start < windowLen → limit ≤ w.request_count →
      admission limit windowLen (some w) now =
          (.Denied (w.window_start + windowLen), some w) ∧
        retryAfter (.Denied (w.window_start + windowLen)) now =
          some (w.window_start + windowLen - now)) := by
  refine ⟨rfl, ?_, ?_, ?_⟩
  · intro hstale
    simp [admission, rlDecide, applyWrite, not_lt.mpr hstale]
  · intro hcur hlt
    simp [admission, rlDecide, applyWrite, hcur, not_le.mpr hlt]
  · intro hcur hge
    refine ⟨?_, rfl⟩
    simp [admission, rlDecide, applyWrite, hcur, hge]

/-- Witness for C1, at the concrete configuration limit 10, window 60000 ms:
all four cases evaluated at explicit inputs. -/
theorem admission_case_analysis_witness :
    admission 10 60000 none 5 = (.Allowed, some ⟨1, 5⟩) ∧
    admission 10 60000 (some ⟨7, 0⟩) 60000 = (.Allowed, some ⟨1, 60000⟩) ∧
    admission 10 60000 (some ⟨7, 0⟩) 5 = (.Allowed, some ⟨8, 0⟩) ∧
    admission 10 60000 (some ⟨10, 0⟩) 5 = (.Denied 60000, some ⟨10, 0⟩) ∧
    retryAfter (.Denied 60000) 5 = some 59995 := by
  have h0 := admission_case_analysis 10 60000 5 ⟨7, 0⟩
  have h1 := admission_case_analysis 10 60000 60000 ⟨7, 0⟩
  have h2 := admission_case_analysis 10 60000 5 ⟨7, 0⟩
  have h3 := admission_case_analysis 10 60000 5 ⟨10, 0⟩
  refine ⟨h0.1, h1.2.1 (by decide), h2.2.2.1 (by decide) (by decide), ?_, ?_⟩
  · exact (h3.2.2.2 (by decide) (by decide)).1
  · have := (h3.2.2.2 (by decide) (by decide)).2
    simpa using this

/-- Helper for C8: starting from a current window with count c, a run of
requests all inside the window is fully allowed and only increments the
count, as long as the budget is not exhausted. -/
theorem runAdmission_within_window (limit : Nat) (windowLen t0 : Int) :
    ∀ (ts : List Int) (c : Nat), c + ts.length ≤ limit →
      (∀ t ∈ ts, t - t0 < windowLen) →
      runAdmission limit windowLen (some ⟨c, t0⟩) ts =
        (ts.map fun _ => .Allowed, some ⟨c + ts.length, t0⟩) := by
  intro ts
  induction ts with
  | nil => intro c _ _; simp [runAdmission]
  | cons t ts ih =>
    intro c hc ht
    have hcur : t - t0 < windowLen := ht t (List.mem_cons_self t ts)
    have hlt : c < limit := by
      have := hc
      simp only [List.length_cons] at this
      omega
    have hstep : admission limit windowLen (some ⟨c, t0⟩) t =
        (.Allowed, some ⟨c + 1, t0⟩) := by
      simp [admission, rlDecide, applyWrite, hcur, not_le.mpr hlt]
    have hrest := ih (c + 1) (by simp only [List.length_cons] at hc; omega)
      (fun u hu => ht u (List.mem_cons_of_mem t hu))
    simp only [runAdmission, hstep, hrest, List.map_cons, List.length_cons]
    have hc' : c + 1 + ts.length = c + (ts.length + 1) := by omega
    rw [hc']

/-- C8: L requests all falling inside the window opened by the first are all
Allowed and leave the count at L; a further request still inside that window
is Denied, with a positive retry_after. -/
theorem admission_window_budget (limit : Nat) (windowLen t0 td : Int) (ts : List Int)
    (hlen : ts.length + 1 = limit)
    (hts : ∀ t ∈ ts, t - t0 < windowLen)
    (hd : td - t0 < windowLen) :
    runAdmission limit windowLen none (t0 :: ts) =
      ((t0 :: ts).map fun _ => .Allowed, some ⟨limit, t0⟩) ∧
    (admission limit windowLen (some ⟨limit, t0⟩) td).1 = .Denied (t0 + windowLen) ∧
    retryAfter (.Denied (t0 + windowLen)) td = some (t0 + windowLen - td) ∧
    0 < t0 + windowLen - td := by
  have hfirst : admission limit windowLen none t0 = (.Allowed, some ⟨1, t0⟩) := rfl
  have hrun := runAdmission_within_window limit windowLen t0 ts 1 (by omega) hts
  refine ⟨?_, ?_, rfl, by omega⟩
  · simp only [runAdmission, hfirst, hrun, List.map_cons]
    have hl : 1 + ts.length = limit := by omega
    rw [hl]
  · simp [admission, rlDecide, hd]

/-- Witness for C8, concrete scenario A: limit 10, window 60 s; ten rapid
requests (all at time 0) are all Allowed, and an eleventh inside the same
window is Denied with retry_after 60000 ms. -/
theorem admission_window_budget_witness :
    runAdmission 10 60000 none (0 :: List.replicate 9 0) =
      ((0 :: List.replicate 9 0).map fun _ => .Allowed, some ⟨10, 0⟩) ∧
    (admission 10 60000 (some ⟨10, 0⟩) 0).1 = .Denied 60000 ∧
    retryAfter (.Denied 60000) 0 = some 60000 ∧
    (0 : Int) < 60000 - 0 := by
  have h := admission_window_budget 10 60000 0 0 (List.replicate 9 0)
    (by decide) (by intro t ht; simp [List.eq_of_mem_replicate ht])
    (by decide)
  exact ⟨h.1, h.2.1, by decide, by decide⟩

/-- C10: a Denied outcome leaves the stored window exactly as it was read:
the denial branch returns without writing. -/
theorem admission_denied_state_unchanged (limit : Nat) (windowLen now resetAt : Int)
    (st st' : Option RateWindow)
    (h : admission limit windowLen st now = (.Denied resetAt, st')) : st' = st := by
  cases st with
  | none => simp [admission, rlDecide, applyWrite] at h
  | some w =>
    by_cases hcur : now - w.window_start < windowLen
    · by_cases hge : limit ≤ w.request_count
      · simp [admission, rlDecide, applyWrite, hcur, hge] at h
        exact h.2.symm
      · simp [admission, rlDecide, applyWrite, hcur, hge] at h
    · simp [admission, rlDecide, applyWrite, hcur] at h

/-- Witness for C10: a concrete denial whose stored window is untouched. -/
theorem admission_denied_state_unchanged_witness :
    admission 10 60000 (some ⟨10, 0⟩) 5 = (.Denied 60000, some ⟨10, 0⟩) ∧
    (some (⟨10, 0⟩ : RateWindow) : Option RateWindow) = some ⟨10, 0⟩ := by
  refine ⟨by decide, ?_⟩
  exact admission_denied_state_unchanged 10 60000 5 60000 (some ⟨10, 0⟩)
    (some ⟨10, 0⟩) (by decide)

/-- C9: the handler reads the row and writes a count computed from that read
in two separate store operations.  Interleaving two concurrent requests for
the same key (read, read, write, write) from a stored count of 5 allows both
but leaves the count at 6, whereas the two calls run sequentially leave 7:
one update is lost, so the sequence is not an atomic read-modify-write. -/
theorem ratelimit_lost_update :
    interleavedSameKey 10 60000 (some ⟨5, 0⟩) 0 =
      ((.Allowed, .Allowed), some ⟨6, 0⟩) ∧
    (admission 10 60000 (some ⟨5, 0⟩) 0).1 = .Allowed ∧
    (admission 10 60000 (admission 10 60000 (some ⟨5, 0⟩) 0).2 0).1 = .Allowed ∧
    (admission 10 60000 (admission 10 60000 (some ⟨5, 0⟩) 0).2 0).2 = some ⟨7, 0⟩ ∧
    (some (⟨6, 0⟩ : RateWindow) : Option RateWindow) ≠ some ⟨7, 0⟩ := by
  refine ⟨by decide, by decide, by decide, by decide, by decide⟩

/-! ### Retrieval engine: match_documents (update_rpc.sql)

The RPC computes, per stored document, similarity = 1 - cosine_distance to
the query embedding, keeps the rows with similarity strictly above the
threshold, orders them by descending similarity and limits the result to
match_count rows.  The vector arithmetic lives in the datastore extension;
the per-document similarity to the query is therefore a parameter here, and
the RPC body (filter, order by desc, limit) is translated directly. -/

structure StoredDoc where
  id : Nat
  title : String
  content : String
deriving Repr, DecidableEq

structure RetrievalMatch where
  id : Nat
  content : String
  title : String
  similarity : ℚ
deriving Repr, DecidableEq

/-- Insertion into a descending run, stable for equal similarities. -/
def insertDesc (m : RetrievalMatch) : List RetrievalMatch → List RetrievalMatch
  | [] => [m]
  | b :: bs =>
    if b.similarity < m.similarity then m :: b :: bs else b :: insertDesc m bs

/-- Order by similarity descending (the ORDER BY similarity DESC clause). -/
def sortDesc : List RetrievalMatch → List RetrievalMatch
  | [] => []
  | a :: as => insertDesc a (sortDesc as)

/-- The match_documents RPC: build the rows with their similarities, keep
those strictly above the threshold, order descending, return at most
match_count. -/
def matchDocuments (docs : List StoredDoc) (sim : StoredDoc → ℚ)
    (threshold : ℚ) (k : Nat) : List RetrievalMatch :=
  (sortDesc (((docs.map fun d => ⟨d.id, d.content, d.title, sim d⟩).filter
    fun m => decide (threshold < m.similarity)))).take k

/-- A list of matches in weakly descending similarity order. -/
def SortedDescSim (l : List RetrievalMatch) : Prop :=
  l.Pairwise fun a b => b.similarity ≤ a.similarity

theorem mem_insertDesc {x m : RetrievalMatch} {l : List RetrievalMatch} :
    x ∈ insertDesc m l ↔ x = m ∨ x ∈ l := by
  induction l with
  | nil => simp [insertDesc]
  | cons b bs ih =>
    by_cases h : b.similarity < m.similarity
    · simp [insertDesc, h]
    · simp [insertDesc, h, ih]
      tauto

theorem mem_sortDesc {x : RetrievalMatch} {l : List RetrievalMatch} :
    x ∈ sortDesc l ↔ x ∈ l := by
  induction l with
  | nil => simp [sortDesc]
  | cons a as ih => simp [sortDesc, mem_insertDesc, ih]

theorem insertDesc_sorted {m : RetrievalMatch} {l : List RetrievalMatch}
    (h : SortedDescSim l) : SortedDescSim (insertDesc m l) := by
  induction l with
  | nil => simp [insertDesc, SortedDescSim]
  | cons b bs ih =>
    rw [SortedDescSim, List.pairwise_cons] at h
    obtain ⟨hb, hbs⟩ := h
    by_cases hlt : b.similarity < m.similarity
    · rw [SortedDescSim, insertDesc, if_pos hlt, List.pairwise_cons]
      refine ⟨?_, ?_⟩
      · intro x hx
        rcases List.mem_cons.mp hx with hxb | hxbs
        · exact hxb ▸ le_of_lt hlt
        · exact le_trans (hb x hxbs) (le_of_lt hlt)
      · rw [List.pairwise_cons]
        exact ⟨hb, hbs⟩
    · rw [SortedDescSim, insertDesc, if_neg hlt, List.pairwise_cons]
      refine ⟨?_, ih hbs⟩
      intro x hx
      rcases mem_insertDesc.mp hx with hxm | hxbs
      · exact hxm ▸ not_lt.mp hlt
      · exact hb x hxbs

theorem sortDesc_sorted (l : List RetrievalMatch) : SortedDescSim (sortDesc l) := by
  induction l with
  | nil => exact List.Pairwise.nil
  | cons a as ih => exact insertDesc_sorted ih

/-- C2: match_documents returns at most k matches, every returned match has
similarity strictly above the threshold, and the result is ordered by
descending similarity; at threshold 1/2 and k = 3, a corpus of four
documents at similarities 9/10, 3/5, 2/5, 3/10 to the query yields exactly
the two matches at 9/10 and 3/5, in that order. -/
theorem matchDocuments_spec (docs : List StoredDoc) (sim : StoredDoc → ℚ)
    (threshold : ℚ) (k : Nat) :
    (matchDocuments docs sim threshold k).length ≤ k ∧
    (∀ m ∈ matchDocuments docs sim threshold k, threshold < m.similarity) ∧
    SortedDescSim (matchDocuments docs sim threshold k) ∧
    matchDocuments
        [⟨1, "t1", "c1"⟩, ⟨2, "t2", "c2"⟩, ⟨3, "t3", "c3"⟩, ⟨4, "t4", "c4"⟩]
        (fun d => if d.id = 1 then mkRat 9 10 else if d.id = 2 then mkRat 3 5
          else if d.id = 3 then mkRat 2 5 else mkRat 3 10) (mkRat 1 2) 3 =
      [⟨1, "c1", "t1", mkRat 9 10⟩, ⟨2, "c2", "t2", mkRat 3 5⟩] := by
  refine ⟨List.length_take_le k _, ?_, ?_, by decide⟩
  · intro m hm
    have hm' := List.mem_of_mem_take hm
    have hm'' := mem_sortDesc.mp hm'
    have := (List.mem_filter.mp hm'').2
    exact of_decide_eq_true this
  · exact (sortDesc_sorted _).sublist (List.take_sublist _ _)

/-- Witness for C2: the bound, filter and order facts extracted at the
concrete scenario corpus. -/
theorem matchDocuments_spec_witness :
    (matchDocuments
        [⟨1, "t1", "c1"⟩, ⟨2, "t2", "c2"⟩, ⟨3, "t3", "c3"⟩, ⟨4, "t4", "c4"⟩]
        (fun d => if d.id = 1 then mkRat 9 10 else if d.id = 2 then mkRat 3 5
          else if d.id = 3 then mkRat 2 5 else mkRat 3 10) (mkRat 1 2) 3).length ≤ 3 ∧
    mkRat 1 2 < (⟨1, "c1", "t1", mkRat 9 10⟩ : RetrievalMatch).similarity := by
  have h := matchDocuments_spec
    [⟨1, "t1", "c1"⟩, ⟨2, "t2", "c2"⟩, ⟨3, "t3", "c3"⟩, ⟨4, "t4", "c4"⟩]
    (fun d => if d.id = 1 then mkRat 9 10 else if d.id = 2 then mkRat 3 5
      else if d.id = 3 then mkRat 2 5 else mkRat 3 10) (mkRat 1 2) 3
  refine ⟨h.1, ?_⟩
  apply h.2.1
  rw [h.2.2.2]
  decide

/-! ### Substring machinery

The handler inspects error messages with String.prototype.includes and the
sanitisation claims quantify over occurrence of one string inside another,
so occurrence is defined executably over the character data. -/

/-- Does the haystack start with the needle? -/
def startsWithChars : List Char → List Char → Bool
  | [], _ => true
  | _ :: _, [] => false
  | a :: as, b :: bs => a = b && startsWithChars as bs

/-- Does the needle occur contiguously anywhere in the haystack? -/
def hasSubstrChars (needle : List Char) : List Char → Bool
  | [] => needle.isEmpty
  | c :: t => startsWithChars needle (c :: t) || hasSubstrChars needle t

/-- JavaScript hay.includes(needle). -/
def containsStr (hay needle : String) : Bool :=
  hasSubstrChars needle.data hay.data

/-- The needle occurs contiguously inside the haystack. -/
def occursIn (needle hay : String) : Prop :=
  ∃ p q : List Char, hay.data = p ++ needle.data ++ q

theorem startsWithChars_iff (n : List Char) :
    ∀ h : List Char, startsWithChars n h = true ↔ ∃ t, h = n ++ t := by
  induction n with
  | nil => intro h; simp [startsWithChars]
  | cons a as ih =>
    intro h
    cases h with
    | nil =>
      simp [startsWithChars]
    | cons b bs =>
      simp only [startsWithChars, Bool.and_eq_true, decide_eq_true_eq, ih bs,
        List.cons_append, List.cons.injEq]
      constructor
      · rintro ⟨hab, t, ht⟩
        exact ⟨t, hab.symm, ht⟩
      · rintro ⟨t, hab, ht⟩
        exact ⟨hab.symm, t, ht⟩

theorem hasSubstrChars_iff (n : List Char) :
    ∀ h : List Char, hasSubstrChars n h = true ↔ ∃ p q, h = p ++ n ++ q := by
  intro h
  induction h with
  | nil =>
    simp only [hasSubstrChars, List.isEmpty_iff]
    constructor
    · rintro rfl; exact ⟨[], [], rfl⟩
    · rintro ⟨p, q, hpq⟩
      rcases List.append_eq_nil.mp (List.append_eq_nil.mp hpq.symm).1 with ⟨_, h2⟩
      exact h2
  | cons c t ih =>
    simp only [hasSubstrChars, Bool.or_eq_true, startsWithChars_iff, ih]
    constructor
    · rintro (⟨s, hs⟩ | ⟨p, q, hpq⟩)
      · exact ⟨[], s, by simp [hs]⟩
      · exact ⟨c :: p, q, by simp [hpq]⟩
    · rintro ⟨p, q, hpq⟩
      cases p with
      | nil => exact Or.inl ⟨q, by simpa using hpq⟩
      | cons c' p' =>
        right
        refine ⟨p', q, ?_⟩
        rw [List.cons_append, List.cons_append] at hpq
        exact (List.cons_eq_cons.mp hpq).2

theorem containsStr_iff (hay needle : String) :
    containsStr hay needle = true ↔ occursIn needle hay :=
  hasSubstrChars_iff needle.data hay.data

/-! ### Request orchestrator (final handler variant)

The final chat handler: config validation, an embed-only branch, request
validation, authentication, best-effort RAG (embedding then vector search,
failures degrade to an empty match list), prompt assembly, the Bytez
completion call, response shaping, and the catch handler that rewrites error
messages.  External collaborators (auth, embedding provider, vector store,
completion provider) are oracles giving this request's outcome of each call;
the trace lists the outbound calls in order, each with the payload the
handler sent. -/

structure ChatMsg where
  role : String
  content : String
deriving Repr, DecidableEq

structure Citation where
  id : Nat
  similarity : ℚ
deriving Repr, DecidableEq

structure Config where
  bytezApiKey : Option String
  openRouterApiKey : Option String
deriving Repr, DecidableEq

inductive CompletionResult where
  | httpErr (status : Nat) (body : String) : CompletionResult
  | netErr (message : String) : CompletionResult
  | okResp (content : Option String) : CompletionResult
deriving Repr, DecidableEq

structure Oracles where
  authUser : Option String
  embedQuery : Except String (List ℚ)
  searchResult : Except String (List RetrievalMatch)
  completion : CompletionResult

structure ReqBody where
  actionEmbed : Bool
  text : Option String
  messages : Option (List ChatMsg)

structure Request where
  authHeader : Option String
  body : ReqBody

inductive Ev where
  | auth : Ev
  | embed (text : String) : Ev
  | retrieve : Ev
  | complete (messages : List ChatMsg) : Ev
deriving Repr, DecidableEq

inductive HResp where
  | okChat (response : String) (citations : Option (List Citation)) : HResp
  | okEmbed (embedding : List ℚ) : HResp
  | err (status : Nat) (message : String) : HResp
deriving Repr, DecidableEq

/-- JavaScript s.substring(0, n), on character data. -/
def takeStr (n : Nat) (s : String) : String := ⟨s.data.take n⟩

/-- The ungrounded persona system instruction (empty retrieval context). -/
def ungroundedPrompt : String :=
  "You are a helpful and enthusiastic college assistant chatbot.\nAnswer the student\x27s questions about the college to the best of your ability.\nIf you don\x27t know something, say so and advise them to contact the college administration.\nFormat your response using Markdown (bold, lists, etc.) where appropriate.\n\nIMPORTANT: If anyone asks who developed you, who made you, or who created you, respond with:\n\"Those Backbenchers from ISE B section Pratham, Prashanth, Varun and Sumeeth developed me and I love them ❤️\""

/-- Text of the grounded system instruction before the interpolated context. -/
def groundedPre : String :=
  "You are a helpful and enthusiastic college assistant chatbot.\nYou have access to the following information from college documents:\n\n"

/-- Text of the grounded system instruction after the interpolated context. -/
def groundedPost : String :=
  "\n\nUse this information to answer the student\x27s questions accurately.\nIf the information is in the documents above, cite it in your response.\nIf you don\x27t know something or it\x27s not in the documents, say so and advise them to contact the college administration.\nFormat your response using Markdown (bold, lists, etc.) where appropriate.\n\nIMPORTANT: If anyone asks who developed you, who made you, or who created you, respond with:\n\"Those Backbenchers from ISE B section Pratham, Prashanth, Varun and Sumeeth developed me and I love them ❤️\""

/-- One context line: [Document i+1]: content truncated to 1000 characters.
The title of the match is not used. -/
def docLine (i : Nat) (d : RetrievalMatch) : String :=
  "[Document " ++ toString (i + 1) ++ "]: " ++ takeStr 1000 d.content

/-- The contextText accumulator: empty unless matches were retrieved, else
the document lines joined by blank lines. -/
def contextTextOf (docs : List RetrievalMatch) : String :=
  if docs.isEmpty then ""
  else String.intercalate "\n\n" (docs.enum.map fun p => docLine p.1 p.2)

/-- systemPrompt: grounded when contextText is non-empty, else the
ungrounded persona instruction. -/
def systemPromptOf (docs : List RetrievalMatch) : String :=
  if contextTextOf docs = "" then ungroundedPrompt
  else groundedPre ++ contextTextOf docs ++ groundedPost

/-- Role normalisation applied to every history turn: anything that is not
an assistant turn is sent as a user turn; the content is passed through. -/
def normalizeMsg (m : ChatMsg) : ChatMsg :=
  ⟨if m.role = "assistant" then "assistant" else "user", m.content⟩

/-- apiMessages: the system instruction followed by every request message. -/
def assembleMessages (docs : List RetrievalMatch) (msgs : List ChatMsg) :
    List ChatMsg :=
  ⟨"system", systemPromptOf docs⟩ :: msgs.map normalizeMsg

/-- citations: one per retrieved match, id and similarity. -/
def citationsListOf (docs : List RetrievalMatch) : List Citation :=
  if docs.isEmpty then [] else docs.map fun d => ⟨d.id, d.similarity⟩

/-- searchDocuments: a vector search error is swallowed and becomes the
empty match list. -/
def searchDocuments (r : Except String (List RetrievalMatch)) :
    List RetrievalMatch :=
  match r with
  | .error _ => []
  | .ok data => data

/-- The matches the RAG step produces: an embedding failure is caught and
skips the search entirely, a search failure yields the empty list. -/
def ragDocs (o : Oracles) : List RetrievalMatch :=
  match o.embedQuery with
  | .error _ => []
  | .ok _ => searchDocuments o.searchResult

/-- Outbound calls of the RAG step: the embedding call always happens (on
the question truncated to the provider limit); the vector search only when
embedding succeeded. -/
def ragTraceOf (o : Oracles) (um : String) : List Ev :=
  match o.embedQuery with
  | .error _ => [.embed (takeStr 8000 um)]
  | .ok _ => [.embed (takeStr 8000 um), .retrieve]

/-- The message of the exception thrown on a non-success completion status:
it interpolates the raw upstream response body. -/
def bytezErrMsg (status : Nat) (body : String) : String :=
  "Bytez API returned " ++ toString status ++ ": " ++ body

/-- The catch handler: substring tests pick a generic message, otherwise a
non-empty error message is echoed behind an Error: tag. -/
def sanitizeError (m : String) : String :=
  if containsStr m "API key" || containsStr m "401" then
    "Invalid API key configuration"
  else if containsStr m "quota" || containsStr m "429" then
    "API quota exceeded. Please try again later."
  else if containsStr m "network" || containsStr m "fetch" then
    "Network error. Please check your connection and try again."
  else if m = "" then "An unexpected error occurred"
  else "Error: " ++ m

/-- No substring test of the catch handler fires on the message. -/
def noSanitizeTrigger (m : String) : Bool :=
  !(containsStr m "API key" || containsStr m "401" || containsStr m "quota" ||
    containsStr m "429" || containsStr m "network" || containsStr m "fetch")

/-- messages[messages.length - 1]?.content, with the falsiness check of the
handler: an empty content is rejected like a missing one. -/
def lastContent (msgs : List ChatMsg) : Option String :=
  match msgs.getLast? with
  | none => none
  | some m => if m.content = "" then none else some m.content

/-- The chat pipeline after authentication: best-effort RAG, prompt
assembly, the completion call, response shaping, and the catch handler on
completion failures. -/
def chatAfterAuth (o : Oracles) (msgs : List ChatMsg) (um : String) :
    HResp × List Ev :=
  let docs := ragDocs o
  let citations := citationsListOf docs
  let api := assembleMessages docs msgs
  let tr := ragTraceOf o um ++ [Ev.complete api]
  match o.completion with
  | .httpErr s b => (.err 200 (sanitizeError (bytezErrMsg s b)), tr)
  | .netErr m => (.err 200 (sanitizeError m), tr)
  | .okResp none => (.err 200 (sanitizeError "Invalid response from AI model"), tr)
  | .okResp (some txt) =>
    (.okChat txt (if citations.isEmpty then none else some citations), tr)

/-- The request handler of the final variant, start to finish.  All error
responses of this variant go out with HTTP status 200. -/
def handle (cfg : Config) (o : Oracles) (req : Request) : HResp × List Ev :=
  match cfg.bytezApiKey with
  | none => (.err 200 "Server configuration error: Bytez API key not configured", [])
  | some _ =>
    match cfg.openRouterApiKey with
    | none => (.err 200 "Server configuration error: OpenRouter API key not configured", [])
    | some _ =>
      if req.body.actionEmbed then
        match req.body.text with
        | none => (.err 200 "Invalid request: text is required for embedding", [])
        | some t =>
          if t = "" then
            (.err 200 "Invalid request: text is required for embedding", [])
          else
            match o.embedQuery with
            | .ok v => (.okEmbed v, [.embed (takeStr 8000 t)])
            | .error m =>
              (.err 200 ("Embedding generation failed: " ++ m), [.embed (takeStr 8000 t)])
      else
        match req.body.messages with
        | none => (.err 200 "Invalid request: messages array is required", [])
        | some msgs =>
          if msgs.isEmpty then
            (.err 200 "Invalid request: messages array is required", [])
          else
            match lastContent msgs with
            | none => (.err 200 "Invalid request: last message must have content", [])
            | some um =>
              match req.authHeader with
              | none => (.err 200 "Missing authorization header", [])
              | some _ =>
                match o.authUser with
                | none => (.err 200 "Unauthorized", [.auth])
                | some _ =>
                  ((chatAfterAuth o msgs um).1, .auth :: (chatAfterAuth o msgs um).2)

/-! ### Helper lemmas about the handler -/

set_option maxRecDepth 100000

theorem chatAfterAuth_snd (o : Oracles) (msgs : List ChatMsg) (um : String) :
    (chatAfterAuth o msgs um).2 =
      ragTraceOf o um ++ [Ev.complete (assembleMessages (ragDocs o) msgs)] := by
  rcases h : o.completion with ⟨s, b⟩ | m | c
  · simp [chatAfterAuth, h]
  · simp [chatAfterAuth, h]
  · cases c <;> simp [chatAfterAuth, h]

theorem handle_chat_reach (cfg : Config) (o : Oracles) (req : Request)
    (bk ork ah uid : String) (msgs : List ChatMsg) (um : String)
    (h1 : cfg.bytezApiKey = some bk) (h2 : cfg.openRouterApiKey = some ork)
    (h3 : req.body.actionEmbed = false) (h4 : req.body.messages = some msgs)
    (h5 : msgs.isEmpty = false) (h6 : lastContent msgs = some um)
    (h7 : req.authHeader = some ah) (h8 : o.authUser = some uid) :
    handle cfg o req =
      ((chatAfterAuth o msgs um).1, .auth :: (chatAfterAuth o msgs um).2) := by
  simp [handle, h1, h2, h3, h4, h5, h6, h7, h8]

theorem ragDocs_eq_nil (o : Oracles)
    (hfail : (∃ e, o.embedQuery = .error e) ∨ (∃ e, o.searchResult = .error e)) :
    ragDocs o = [] := by
  rcases hfail with ⟨e, he⟩ | ⟨e, he⟩
  · simp [ragDocs, he]
  · rcases hq : o.embedQuery with e' | v
    · simp [ragDocs, hq]
    · simp [ragDocs, hq, searchDocuments, he]

theorem handle_chat_trace_shape (cfg : Config) (o : Oracles) (req : Request)
    (hae : req.body.actionEmbed = false) :
    (handle cfg o req).2 = [] ∨ (handle cfg o req).2 = [Ev.auth] ∨
    ((∃ ah, req.authHeader = some ah) ∧ (∃ uid, o.authUser = some uid) ∧
      ∃ msgs um, (handle cfg o req).2 =
        Ev.auth :: ragTraceOf o um ++
          [Ev.complete (assembleMessages (ragDocs o) msgs)]) := by
  obtain ⟨bko, orko⟩ := cfg
  obtain ⟨ah, bd⟩ := req
  obtain ⟨ae, tx, ms⟩ := bd
  cases ae with
  | true => simp at hae
  | false =>
    cases bko with
    | none => left; rfl
    | some bk =>
      cases orko with
      | none => left; rfl
      | some ork =>
        cases ms with
        | none => left; rfl
        | some msgs =>
          by_cases he : msgs.isEmpty
          · left; simp [handle, he]
          · cases hlc : lastContent msgs with
            | none => left; simp [handle, he, hlc]
            | some um =>
              cases ah with
              | none => left; simp [handle, he, hlc]
              | some a =>
                cases hau : o.authUser with
                | none => right; left; simp [handle, he, hlc, hau]
                | some u =>
                  right; right
                  refine ⟨⟨a, rfl⟩, ⟨u, rfl⟩, msgs, um, ?_⟩
                  simp [handle, he, hlc, hau, chatAfterAuth_snd]

theorem handle_embed_trace_shape (cfg : Config) (o : Oracles) (req : Request)
    (hae : req.body.actionEmbed = true) :
    (handle cfg o req).2 = [] ∨
    ∃ t, (handle cfg o req).2 = [Ev.embed (takeStr 8000 t)] := by
  obtain ⟨bko, orko⟩ := cfg
  obtain ⟨ah, bd⟩ := req
  obtain ⟨ae, tx, ms⟩ := bd
  cases ae with
  | false => simp at hae
  | true =>
    cases bko with
    | none => left; rfl
    | some bk =>
      cases orko with
      | none => left; rfl
      | some ork =>
        cases tx with
        | none => left; rfl
        | some t =>
          by_cases ht : t = ""
          · left; simp [handle, ht]
          · rcases hq : o.embedQuery with m | v
            · exact Or.inr ⟨t, by simp [handle, ht, hq]⟩
            · exact Or.inr ⟨t, by simp [handle, ht, hq]⟩

theorem normalizeMsg_id (m : ChatMsg)
    (h : m.role = "user" ∨ m.role = "assistant") : normalizeMsg m = m := by
  obtain ⟨r, c⟩ := m
  rcases h with h | h <;> simp only at h <;> subst h <;> simp [normalizeMsg]

theorem map_normalizeMsg_id (msgs : List ChatMsg)
    (h : ∀ m ∈ msgs, m.role = "user" ∨ m.role = "assistant") :
    msgs.map normalizeMsg = msgs := by
  induction msgs with
  | nil => rfl
  | cons m ms ih =>
    rw [List.map_cons, normalizeMsg_id m (h m (List.mem_cons_self m ms)),
      ih fun x hx => h x (List.mem_cons_of_mem m hx)]

theorem occursIn_append_right (n a b : String) (h : occursIn n b) :
    occursIn n (a ++ b) := by
  obtain ⟨p, q, hpq⟩ := h
  exact ⟨a.data ++ p, q, by simp [hpq, List.append_assoc]⟩

theorem intercalate_go_data (s : String) :
    ∀ (as : List String) (acc : String),
      ∃ r, (String.intercalate.go acc s as).data = acc.data ++ r := by
  intro as
  induction as with
  | nil => intro acc; exact ⟨[], by simp [String.intercalate.go]⟩
  | cons a as ih =>
    intro acc
    obtain ⟨r, hr⟩ := ih (acc ++ s ++ a)
    exact ⟨s.data ++ (a.data ++ r), by
      simp only [String.intercalate.go, hr, String.data_append, List.append_assoc]⟩

theorem contextTextOf_ne_empty (d : RetrievalMatch) (ds : List RetrievalMatch) :
    contextTextOf (d :: ds) ≠ "" := by
  intro h
  have hdata := congrArg String.data h
  rw [contextTextOf] at hdata
  simp only [List.isEmpty_cons, if_false, Bool.false_eq_true] at hdata
  have henum : ((d :: ds).enum.map fun p => docLine p.1 p.2) =
      docLine 0 d :: (ds.enumFrom 1).map fun p => docLine p.1 p.2 := rfl
  rw [henum, String.intercalate] at hdata
  obtain ⟨r, hr⟩ := intercalate_go_data "\n\n"
    ((ds.enumFrom 1).map fun p => docLine p.1 p.2) (docLine 0 d)
  rw [hr] at hdata
  rcases List.append_eq_nil.mp hdata with ⟨h1, -⟩
  rw [docLine] at h1
  simp only [String.data_append, List.append_assoc] at h1
  rcases List.append_eq_nil.mp h1 with ⟨h2, -⟩
  exact absurd h2 (by decide)

theorem bytezErrMsg_ne_empty (s : Nat) (b : String) : bytezErrMsg s b ≠ "" := by
  intro h
  have hdata := congrArg String.data h
  simp only [bytezErrMsg, String.data_append, List.append_assoc] at hdata
  rcases List.append_eq_nil.mp hdata with ⟨h2, -⟩
  exact absurd h2 (by decide)

/-! ### C3: authentication before provider calls -/

/-- C3 counterexample: an embed-only request carrying no credential at all
(and whose auth collaborator would report invalid) is served successfully,
with the embedding provider called: authentication does not happen first on
this path, contradicting the claim for embed-only requests. -/
theorem auth_gate_counterexample :
    handle ⟨some "bk", some "ork"⟩ ⟨none, .ok [1], .ok [], .okResp none⟩
        ⟨none, ⟨true, some "hello", none⟩⟩ =
      (.okEmbed [1], [.embed (takeStr 8000 "hello")]) ∧
    (⟨none, ⟨true, some "hello", none⟩⟩ : Request).authHeader = none ∧
    Ev.embed (takeStr 8000 "hello") ≠ Ev.auth := by
  exact ⟨by decide, rfl, by decide⟩

/-- C3 amended: for chat requests (not embed-only) authentication is the
first outbound call and a request with absent or invalid credential
triggers no embedding, retrieval or completion call; embed-only requests,
however, perform no authentication at all and call the embedding provider
(on the truncated text) regardless of the credential. -/
theorem auth_before_providers_amended (cfg : Config) (o : Oracles) (req : Request) :
    (req.body.actionEmbed = false →
      ((handle cfg o req).2 = [] ∨ (handle cfg o req).2.head? = some Ev.auth) ∧
      ((req.authHeader = none ∨ o.authUser = none) →
        ∀ e ∈ (handle cfg o req).2, e = Ev.auth)) ∧
    (req.body.actionEmbed = true →
      Ev.auth ∉ (handle cfg o req).2 ∧
      ∀ t bk ork, req.body.text = some t → t ≠ "" →
        cfg.bytezApiKey = some bk → cfg.openRouterApiKey = some ork →
        (handle cfg o req).2 = [Ev.embed (takeStr 8000 t)]) := by
  constructor
  · intro hae
    rcases handle_chat_trace_shape cfg o req hae with h | h | ⟨⟨a, ha⟩, ⟨u, hu⟩, msgs, um, h⟩
    · rw [h]
      exact ⟨Or.inl rfl, fun _ e he => absurd he (List.not_mem_nil e)⟩
    · rw [h]
      exact ⟨Or.inr rfl, fun _ e he => by simpa using he⟩
    · refine ⟨Or.inr (by rw [h]; rfl), ?_⟩
      rintro (hn | hn)
      · rw [ha] at hn
        exact absurd hn (by simp)
      · rw [hu] at hn
        exact absurd hn (by simp)
  · intro hae
    constructor
    · rcases handle_embed_trace_shape cfg o req hae with h | ⟨t, h⟩
      · rw [h]; exact List.not_mem_nil _
      · rw [h]; simp
    · intro t bk ork htx ht h1 h2
      rcases hq : o.embedQuery with m | v
      · simp [handle, h1, h2, hae, htx, ht, hq]
      · simp [handle, h1, h2, hae, htx, ht, hq]

/-- Witness for the amended C3, at concrete requests: a chat request with no
credential produces no provider call, and an embed-only request with no
credential produces exactly the embedding call. -/
theorem auth_before_providers_amended_witness :
    (∀ e ∈ (handle ⟨some "bk", some "ork"⟩ ⟨none, .ok [1], .ok [], .okResp none⟩
        ⟨none, ⟨false, none, some [⟨"user", "hi"⟩]⟩⟩).2, e = Ev.auth) ∧
    (handle ⟨some "bk", some "ork"⟩ ⟨none, .ok [1], .ok [], .okResp none⟩
        ⟨none, ⟨true, some "hello", none⟩⟩).2 = [.embed (takeStr 8000 "hello")] := by
  refine ⟨((auth_before_providers_amended _ _ _).1 rfl).2 (Or.inl rfl), ?_⟩
  exact ((auth_before_providers_amended _ _ _).2 rfl).2 "hello" "bk" "ork" rfl
    (by decide) rfl rfl

/-! ### C4: sanitisation of completion failures -/

/-- C4 counterexample: a non-success completion status 500 with upstream
body boom produces the user-visible error text
Error: Bytez API returned 500: boom, which contains the raw upstream
response body. -/
theorem sanitize_counterexample :
    (handle ⟨some "bk", some "ork"⟩
        ⟨some "uid", .ok [1], .ok [], .httpErr 500 "boom"⟩
        ⟨some "ah", ⟨false, none, some [⟨"user", "hi"⟩]⟩⟩).1 =
      .err 200 "Error: Bytez API returned 500: boom" ∧
    occursIn "boom" "Error: Bytez API returned 500: boom" := by
  refine ⟨by decide, ?_⟩
  exact (containsStr_iff _ _).mp (by decide)

/-- C4 amended: on a non-success completion status the user-visible error
is the catch handler applied to the thrown message; when none of the
substring tests (API key, 401, quota, 429, network, fetch) fires on that
message, the text is Error: followed by the full thrown message and embeds
the raw upstream response body. -/
theorem sanitize_amended (cfg : Config) (o : Oracles) (req : Request)
    (bk ork ah uid : String) (msgs : List ChatMsg) (um : String)
    (s : Nat) (b : String)
    (h1 : cfg.bytezApiKey = some bk) (h2 : cfg.openRouterApiKey = some ork)
    (h3 : req.body.actionEmbed = false) (h4 : req.body.messages = some msgs)
    (h5 : msgs.isEmpty = false) (h6 : lastContent msgs = some um)
    (h7 : req.authHeader = some ah) (h8 : o.authUser = some uid)
    (hc : o.completion = .httpErr s b) :
    (handle cfg o req).1 = .err 200 (sanitizeError (bytezErrMsg s b)) ∧
    (noSanitizeTrigger (bytezErrMsg s b) = true →
      sanitizeError (bytezErrMsg s b) = "Error: " ++ bytezErrMsg s b ∧
      occursIn b ("Error: " ++ bytezErrMsg s b)) := by
  constructor
  · rw [handle_chat_reach cfg o req bk ork ah uid msgs um h1 h2 h3 h4 h5 h6 h7 h8]
    simp [chatAfterAuth, hc]
  · intro hno
    simp only [noSanitizeTrigger, Bool.not_eq_true', Bool.or_eq_false_iff] at hno
    obtain ⟨⟨⟨⟨⟨ha1, ha2⟩, ha3⟩, ha4⟩, ha5⟩, ha6⟩ := hno
    constructor
    · rw [sanitizeError]
      simp [ha1, ha2, ha3, ha4, ha5, ha6, bytezErrMsg_ne_empty s b]
    · refine ⟨"Error: ".data ++ ("Bytez API returned ".data ++
        ((toString s).data ++ ": ".data)), [], ?_⟩
      simp [bytezErrMsg, List.append_assoc]

/-- Witness for the amended C4 at status 500 and body boom. -/
theorem sanitize_amended_witness :
    (handle ⟨some "bk", some "ork"⟩
        ⟨some "uid", .ok [1], .ok [], .httpErr 500 "boom"⟩
        ⟨some "ah", ⟨false, none, some [⟨"user", "hi"⟩]⟩⟩).1 =
      .err 200 (sanitizeError (bytezErrMsg 500 "boom")) ∧
    sanitizeError (bytezErrMsg 500 "boom") = "Error: " ++ bytezErrMsg 500 "boom" ∧
    occursIn "boom" ("Error: " ++ bytezErrMsg 500 "boom") := by
  have h := sanitize_amended ⟨some "bk", some "ork"⟩
    ⟨some "uid", .ok [1], .ok [], .httpErr 500 "boom"⟩
    ⟨some "ah", ⟨false, none, some [⟨"user", "hi"⟩]⟩⟩
    "bk" "ork" "ah" "uid" [⟨"user", "hi"⟩] "hi" 500 "boom"
    rfl rfl rfl rfl (by decide) (by decide) rfl rfl rfl
  exact ⟨h.1, (h.2 (by decide)).1, (h.2 (by decide)).2⟩

/-! ### C5: RAG failures degrade, the request continues -/

/-- C5: for a chat request, an embedding failure or a vector search failure
leaves the match list empty, the completion call still happens with the
ungrounded system instruction and the verbatim history, and a successful
completion is returned without citations. -/
theorem chat_degrades_on_rag_failure (cfg : Config) (o : Oracles) (req : Request)
    (bk ork ah uid : String) (msgs : List ChatMsg) (um : String)
    (h1 : cfg.bytezApiKey = some bk) (h2 : cfg.openRouterApiKey = some ork)
    (h3 : req.body.actionEmbed = false) (h4 : req.body.messages = some msgs)
    (h5 : msgs.isEmpty = false) (h6 : lastContent msgs = some um)
    (h7 : req.authHeader = some ah) (h8 : o.authUser = some uid)
    (hfail : (∃ e, o.embedQuery = .error e) ∨ (∃ e, o.searchResult = .error e)) :
    ragDocs o = [] ∧
    (handle cfg o req).2 =
      Ev.auth :: ragTraceOf o um ++
        [Ev.complete (⟨"system", ungroundedPrompt⟩ :: msgs.map normalizeMsg)] ∧
    ∀ txt, o.completion = .okResp (some txt) →
      (handle cfg o req).1 = .okChat txt none := by
  have hd := ragDocs_eq_nil o hfail
  have hr := handle_chat_reach cfg o req bk ork ah uid msgs um h1 h2 h3 h4 h5 h6 h7 h8
  refine ⟨hd, ?_, ?_⟩
  · rw [hr]
    simp [chatAfterAuth_snd, hd, assembleMessages, systemPromptOf, contextTextOf]
  · intro txt htxt
    rw [hr]
    simp [chatAfterAuth, htxt, hd, citationsListOf]

/-- Witness for C5, concrete scenario C: the embedding provider fails with a
network failure, retrieval is empty, completion proceeds on the ungrounded
instruction and the answer carries no citations. -/
theorem chat_degrades_on_rag_failure_witness :
    ragDocs ⟨some "uid", .error "network failure", .ok [], .okResp (some "answer")⟩ = [] ∧
    (handle ⟨some "bk", some "ork"⟩
        ⟨some "uid", .error "network failure", .ok [], .okResp (some "answer")⟩
        ⟨some "ah", ⟨false, none, some [⟨"user", "hi"⟩]⟩⟩).2 =
      Ev.auth :: ragTraceOf
          ⟨some "uid", .error "network failure", .ok [], .okResp (some "answer")⟩ "hi" ++
        [Ev.complete (⟨"system", ungroundedPrompt⟩ ::
          [(⟨"user", "hi"⟩ : ChatMsg)].map normalizeMsg)] ∧
    (handle ⟨some "bk", some "ork"⟩
        ⟨some "uid", .error "network failure", .ok [], .okResp (some "answer")⟩
        ⟨some "ah", ⟨false, none, some [⟨"user", "hi"⟩]⟩⟩).1 =
      .okChat "answer" none := by
  have h := chat_degrades_on_rag_failure ⟨some "bk", some "ork"⟩
    ⟨some "uid", .error "network failure", .ok [], .okResp (some "answer")⟩
    ⟨some "ah", ⟨false, none, some [⟨"user", "hi"⟩]⟩⟩
    "bk" "ork" "ah" "uid" [⟨"user", "hi"⟩] "hi"
    rfl rfl rfl rfl (by decide) (by decide) rfl rfl
    (Or.inl ⟨"network failure", rfl⟩)
  exact ⟨h.1, h.2.1, h.2.2 "answer" rfl⟩

/-! ### C6: citations are one-to-one with the matches in the prompt -/

/-- C6: a successful chat response carries one citation per retrieved match
placed into the prompt context, with that match's id and similarity, and no
citations at all when no match was placed; the completion call receives the
messages assembled from exactly those matches. -/
theorem citations_one_to_one (cfg : Config) (o : Oracles) (req : Request)
    (bk ork ah uid : String) (msgs : List ChatMsg) (um txt : String)
    (h1 : cfg.bytezApiKey = some bk) (h2 : cfg.openRouterApiKey = some ork)
    (h3 : req.body.actionEmbed = false) (h4 : req.body.messages = some msgs)
    (h5 : msgs.isEmpty = false) (h6 : lastContent msgs = some um)
    (h7 : req.authHeader = some ah) (h8 : o.authUser = some uid)
    (h9 : o.completion = .okResp (some txt)) :
    (handle cfg o req).1 =
      .okChat txt (if (ragDocs o).isEmpty then none
        else some ((ragDocs o).map fun d => ⟨d.id, d.similarity⟩)) ∧
    (handle cfg o req).2 =
      Ev.auth :: ragTraceOf o um ++
        [Ev.complete (assembleMessages (ragDocs o) msgs)] ∧
    ((ragDocs o).map fun d => (⟨d.id, d.similarity⟩ : Citation)).length =
      (ragDocs o).length ∧
    ∀ (i : Nat) (hi : i < (ragDocs o).length)
      (hi' : i < ((ragDocs o).map fun d => (⟨d.id, d.similarity⟩ : Citation)).length),
      ((ragDocs o).map fun d => (⟨d.id, d.similarity⟩ : Citation)).get ⟨i, hi'⟩ =
        ⟨((ragDocs o).get ⟨i, hi⟩).id, ((ragDocs o).get ⟨i, hi⟩).similarity⟩ := by
  have hr := handle_chat_reach cfg o req bk ork ah uid msgs um h1 h2 h3 h4 h5 h6 h7 h8
  refine ⟨?_, ?_, List.length_map _ _, ?_⟩
  · rw [hr]
    cases hdocs : ragDocs o with
    | nil => simp [chatAfterAuth, h9, citationsListOf, hdocs]
    | cons d ds => simp [chatAfterAuth, h9, citationsListOf, hdocs]
  · rw [hr]
    simp [chatAfterAuth_snd]
  · intro i hi hi'
    simp [List.get_eq_getElem]

/-- Witness for C6: a retrieval of one match yields exactly one citation
with its id and similarity. -/
theorem citations_one_to_one_witness :
    (handle ⟨some "bk", some "ork"⟩
        ⟨some "uid", .ok [1], .ok [⟨1, "c1", "t1", mkRat 9 10⟩], .okResp (some "ans")⟩
        ⟨some "ah", ⟨false, none, some [⟨"user", "hi"⟩]⟩⟩).1 =
      .okChat "ans" (some [⟨1, mkRat 9 10⟩]) ∧
    ((ragDocs ⟨some "uid", .ok [1], .ok [⟨1, "c1", "t1", mkRat 9 10⟩],
        .okResp (some "ans")⟩).map fun d => (⟨d.id, d.similarity⟩ : Citation)).length =
      (ragDocs ⟨some "uid", .ok [1], .ok [⟨1, "c1", "t1", mkRat 9 10⟩],
        .okResp (some "ans")⟩).length := by
  have h := citations_one_to_one ⟨some "bk", some "ork"⟩
    ⟨some "uid", .ok [1], .ok [⟨1, "c1", "t1", mkRat 9 10⟩], .okResp (some "ans")⟩
    ⟨some "ah", ⟨false, none, some [⟨"user", "hi"⟩]⟩⟩
    "bk" "ork" "ah" "uid" [⟨"user", "hi"⟩] "hi" "ans"
    rfl rfl rfl rfl (by decide) (by decide) rfl rfl rfl
  exact ⟨h.1.trans (by decide), h.2.2.1⟩

/-! ### C7: prompt assembly -/

/-- C7 counterexample: prompt assembly with one retrieved match whose title
is zqzq produces a leading system instruction in which that title does not
occur anywhere: the grounded instruction does not restate titles. -/
theorem prompt_title_counterexample :
    (assembleMessages [⟨7, "c", "zqzq", 1⟩] [⟨"user", "hi"⟩]).head? =
      some ⟨"system", systemPromptOf [⟨7, "c", "zqzq", 1⟩]⟩ ∧
    (⟨7, "c", "zqzq", 1⟩ : RetrievalMatch).title = "zqzq" ∧
    ¬ occursIn "zqzq" (systemPromptOf [⟨7, "c", "zqzq", 1⟩]) := by
  refine ⟨rfl, rfl, ?_⟩
  intro hocc
  have := (containsStr_iff _ _).mpr hocc
  exact absurd this (by decide)

/-- C7 amended: prompt assembly emits the system instruction first, then
every request message in order with roles normalised (verbatim for
well-formed histories, so the user question stays last); with matches the
instruction is the grounded preamble, the context (content of each match
only, truncated to 1000 characters and labelled by position, titles
unused) and the grounded tail stating citation behaviour; with no matches
it is the ungrounded persona instruction. -/
theorem prompt_assembly_amended (docs : List RetrievalMatch) (msgs : List ChatMsg)
    (hroles : ∀ m ∈ msgs, m.role = "user" ∨ m.role = "assistant") :
    assembleMessages docs msgs = ⟨"system", systemPromptOf docs⟩ :: msgs ∧
    (docs = [] → systemPromptOf docs = ungroundedPrompt) ∧
    (docs ≠ [] →
      systemPromptOf docs = groundedPre ++ contextTextOf docs ++ groundedPost ∧
      contextTextOf docs = String.intercalate "\n\n"
        (docs.enum.map fun p =>
          "[Document " ++ toString (p.1 + 1) ++ "]: " ++ takeStr 1000 p.2.content) ∧
      occursIn "cite it in your response" (systemPromptOf docs)) ∧
    (msgs ≠ [] → (assembleMessages docs msgs).getLast? = msgs.getLast?) := by
  have hmap := map_normalizeMsg_id msgs hroles
  have hasm : assembleMessages docs msgs = ⟨"system", systemPromptOf docs⟩ :: msgs := by
    rw [assembleMessages, hmap]
  refine ⟨hasm, ?_, ?_, ?_⟩
  · rintro rfl
    rfl
  · intro hne
    obtain ⟨d, ds, rfl⟩ : ∃ d ds, docs = d :: ds := by
      cases docs with
      | nil => exact absurd rfl hne
      | cons d ds => exact ⟨d, ds, rfl⟩
    have hctx := contextTextOf_ne_empty d ds
    have hsys : systemPromptOf (d :: ds) =
        groundedPre ++ contextTextOf (d :: ds) ++ groundedPost := by
      rw [systemPromptOf, if_neg hctx]
    refine ⟨hsys, ?_, ?_⟩
    · rw [contextTextOf]
      simp [docLine]
    · rw [hsys]
      exact occursIn_append_right _ _ _ ((containsStr_iff _ _).mp (by decide))
  · intro hne
    rw [hasm]
    cases msgs with
    | nil => exact absurd rfl hne
    | cons m ms => exact List.getLast?_cons_cons

/-- Witness for the amended C7 at a one-match, one-turn input. -/
theorem prompt_assembly_amended_witness :
    assembleMessages [⟨7, "c", "zqzq", 1⟩] [⟨"user", "hi"⟩] =
      [⟨"system", systemPromptOf [⟨7, "c", "zqzq", 1⟩]⟩, ⟨"user", "hi"⟩] ∧
    systemPromptOf [⟨7, "c", "zqzq", 1⟩] =
      groundedPre ++ contextTextOf [⟨7, "c", "zqzq", 1⟩] ++ groundedPost := by
  have h := prompt_assembly_amended [⟨7, "c", "zqzq", 1⟩] [⟨"user", "hi"⟩]
    (by intro m hm; simp at hm; subst hm; exact Or.inl rfl)
  exact ⟨h.1, (h.2.2.1 (by simp)).1⟩

end Collagebot
